import Mathlib

/-!
Verification of the implicit-filter solve pipeline (`CuPyFilter` in
`implicit_filter/cupy_filter.py`, base class contract in
`implicit_filter/filter.py`).

Embedding conventions:
* Scalars are modelled by `ℚ` (the code's floating-point arithmetic is read
  as exact field arithmetic, as the spec's algebraic statements do).
* Dense vectors of length `m` are `Fin m → ℚ`; sparse matrices are
  `Matrix (Fin m) (Fin m) ℚ` (sparsity is a storage concern, not a value
  concern).
* The external conjugate-gradient routine `cupyx.scipy.sparse.linalg.cg`
  is a parameter of type `CG m`: it receives the matrix, the right-hand
  side, `tol` and `maxiter`, and returns a candidate solution together
  with an integer exit code (0 means converged).
* Exceptions are modelled by `Except`; `raise` is `Except.error`.
* A `with cupy.cuda.Device(i)` block selects where a computation runs but
  does not change its value, so device ordinals are threaded through the
  batch schedulers exactly as in the code and ignored by the solve.
-/

namespace ImplicitFilter

/-- The mesh-derived triplet arrays `(_ss, _ii, _jj)` owned by the filter
instance: values, row indices, column indices of the stiffness operator in
coordinate format. -/
structure Triplets where
  ss : List ℚ
  ii : List ℕ
  jj : List ℕ
deriving DecidableEq

/-- Accumulate one coordinate-format entry `(value, row, col)` into a dense
matrix: entries whose indices fall outside `Fin m` contribute nothing. -/
def cooEntryAdd (m : ℕ) (A : Matrix (Fin m) (Fin m) ℚ) (e : ℚ × ℕ × ℕ) :
    Matrix (Fin m) (Fin m) ℚ :=
  Matrix.of fun r c => if e.2.1 = r.val ∧ e.2.2 = c.val then A r c + e.1 else A r c

/-- `cupyx.scipy.sparse.csc_matrix((data, (row, col)), shape=(m, m))`:
materialise the coordinate triplets into an `m × m` matrix, summing
duplicate `(row, col)` pairs. -/
def csc_matrix (data : List ℚ) (row col : List ℕ) (m : ℕ) :
    Matrix (Fin m) (Fin m) ℚ :=
  (data.zip (row.zip col)).foldl (cooEntryAdd m) 0

/-- `Smat1` inside `_compute` / `_compute_full`: the triplet values scaled by
`1 / kl^2` (the code computes `self._ss * (1.0 / cupy.square(kl))`) and
assembled at side `m`. -/
def assembleS (t : Triplets) (kl : ℚ) (m : ℕ) : Matrix (Fin m) (Fin m) ℚ :=
  csc_matrix (t.ss.map (fun v => v * (1 / kl ^ 2))) t.ii t.jj m

/-- `Smat = cupy_identity(m) + 0.5 * (Smat1 ** n)`; for cupyx sparse
matrices `**` is the matrix power, embedded as `Monoid.npow` on `Matrix`. -/
def filterMatrix (t : Triplets) (kl : ℚ) (n : ℕ) (m : ℕ) :
    Matrix (Fin m) (Fin m) ℚ :=
  1 + (1 / 2 : ℚ) • (assembleS t kl m) ^ n

/-- `SolverNotConvergedError` from `implicit_filter._utils`: carries a
human-readable message and a list of diagnostic strings. -/
structure SolverNotConvergedError where
  message : String
  diagnostics : List String
deriving DecidableEq

/-- The external conjugate-gradient routine: matrix, right-hand side,
tolerance, iteration cap; returns the candidate solution and an exit code. -/
def CG (s : ℕ) : Type :=
  Matrix (Fin s) (Fin s) ℚ → (Fin s → ℚ) → ℚ → ℕ → (Fin s → ℚ) × ℤ

/-- `CuPyFilter._compute`: assemble `Smat`, form the perturbation
`ttw = ttu - Smat @ ttu`, call `cg`, raise on a nonzero exit code, and
otherwise return `tts + ttu`. -/
def compute (m : ℕ) (cg : CG m) (t : Triplets) (n : ℕ) (kl : ℚ)
    (ttu : Fin m → ℚ) (tol : ℚ) (maxiter : ℕ) :
    Except SolverNotConvergedError (Fin m → ℚ) :=
  let Smat := filterMatrix t kl n m
  let ttw := ttu - Smat.mulVec ttu
  let r := cg Smat ttw tol maxiter
  if r.2 ≠ 0 then
    Except.error { message := "Solver has not converged without metric terms",
                   diagnostics := ["output code with code: " ++ toString r.2] }
  else
    Except.ok (r.1 + ttu)

/-- `CuPyFilter._compute_full`: the same procedure on the doubled system of
side `2 * n2d` (written `m + m` so that concatenation is `Fin.append`),
with the combined-mode diagnostic message. -/
def compute_full (m : ℕ) (cg : CG (m + m)) (t : Triplets) (n : ℕ) (kl : ℚ)
    (ttuv : Fin (m + m) → ℚ) (tol : ℚ) (maxiter : ℕ) :
    Except SolverNotConvergedError (Fin (m + m) → ℚ) :=
  let Smat := filterMatrix t kl n (m + m)
  let ttw := ttuv - Smat.mulVec ttuv
  let r := cg Smat ttw tol maxiter
  if r.2 ≠ 0 then
    Except.error { message := "Solver has not converged with metric terms",
                   diagnostics := ["output code with code: " ++ toString r.2] }
  else
    Except.ok (r.1 + ttuv)

/-- `tts[0:self._n2d]`: the first half of a doubled-system vector. -/
def firstHalf (m : ℕ) (w : Fin (m + m) → ℚ) : Fin m → ℚ :=
  fun i => w (Fin.castAdd m i)

/-- `tts[self._n2d:2 * self._n2d]`: the second half of a doubled-system
vector. -/
def secondHalf (m : ℕ) (w : Fin (m + m) → ℚ) : Fin m → ℚ :=
  fun i => w (Fin.natAdd m i)

/-- The `for f in futures: output.append(f.result())` loop: results are read
in submission order, and `f.result()` re-raises the first stored exception
encountered in that order. -/
def collect {E V : Type} : List (Except E V) → Except E (List V)
  | [] => Except.ok []
  | f :: fs =>
    match f with
    | Except.error e => Except.error e
    | Except.ok r =>
      match collect fs with
      | Except.error e => Except.error e
      | Except.ok rs => Except.ok (r :: rs)

/-- The `helper(tt, i)` closure of `_many_compute`: runs `_compute` inside
`with cupy.cuda.Device(dev)`.  The device ordinal chooses hardware only, so
the embedding takes it and ignores it. -/
def helper (m : ℕ) (cg : CG m) (t : Triplets) (n : ℕ) (kl : ℚ) (tol : ℚ)
    (maxiter : ℕ) (tt : Fin m → ℚ) (dev : ℕ) :
    Except SolverNotConvergedError (Fin m → ℚ) :=
  have _ := dev
  compute m cg t n kl tt tol maxiter

/-- The `helper(tt, i)` closure of `_many_compute_full` /
`_spectra_compute_full`: runs `_compute_full` inside
`with cupy.cuda.Device(dev)`. -/
def helper_full (m : ℕ) (cg : CG (m + m)) (t : Triplets) (n : ℕ) (kl : ℚ)
    (tol : ℚ) (maxiter : ℕ) (tt : Fin (m + m) → ℚ) (dev : ℕ) :
    Except SolverNotConvergedError (Fin (m + m) → ℚ) :=
  have _ := dev
  compute_full m cg t n kl tt tol maxiter

/-- `n_parallel = 24` in `_many_compute` and `_spectra_compute`. -/
def n_parallel_scalar : ℕ := 24

/-- `n_parallel = 12` in `_many_compute_full` and `_spectra_compute_full`. -/
def n_parallel_full : ℕ := 12

/-- `CuPyFilter._many_compute`, chunk loop written as fuel-bounded recursion
on the remaining data (`fuel` starts at `data.length`, enough because each
step drops a nonempty chunk).  Within a chunk the code submits
`helper(tt, i % no_gpu)`; the device ordinal selects a GPU and does not
change the solve's value. -/
def many_compute_aux (m : ℕ) (cg : CG m) (t : Triplets) (n : ℕ) (kl : ℚ)
    (tol : ℚ) (maxiter : ℕ) (no_gpu : ℕ) :
    ℕ → List (Fin m → ℚ) → Except SolverNotConvergedError (List (Fin m → ℚ))
  | _, [] => Except.ok []
  | 0, _ :: _ => Except.ok []
  | fuel + 1, d :: ds =>
    let data_chunk := (d :: ds).take n_parallel_scalar
    let futures := data_chunk.enum.map
      (fun p => helper m cg t n kl tol maxiter p.2 (p.1 % no_gpu))
    match collect futures with
    | Except.error e => Except.error e
    | Except.ok res =>
      match many_compute_aux m cg t n kl tol maxiter no_gpu fuel
          ((d :: ds).drop n_parallel_scalar) with
      | Except.error e => Except.error e
      | Except.ok rest => Except.ok (res ++ rest)

/-- `CuPyFilter._many_compute`. -/
def many_compute (m : ℕ) (cg : CG m) (t : Triplets) (n : ℕ) (kl : ℚ)
    (data : List (Fin m → ℚ)) (tol : ℚ) (maxiter : ℕ) (no_gpu : ℕ) :
    Except SolverNotConvergedError (List (Fin m → ℚ)) :=
  many_compute_aux m cg t n kl tol maxiter no_gpu data.length data

/-- `CuPyFilter._spectra_compute`, chunking the wavelength list by 24 with
the data vector fixed. -/
def spectra_compute_aux (m : ℕ) (cg : CG m) (t : Triplets) (n : ℕ)
    (data : Fin m → ℚ) (tol : ℚ) (maxiter : ℕ) (no_gpu : ℕ) :
    ℕ → List ℚ → Except SolverNotConvergedError (List (Fin m → ℚ))
  | _, [] => Except.ok []
  | 0, _ :: _ => Except.ok []
  | fuel + 1, k :: ks =>
    let kl_chunk := (k :: ks).take n_parallel_scalar
    let futures := kl_chunk.enum.map
      (fun p => helper m cg t n p.2 tol maxiter data (p.1 % no_gpu))
    match collect futures with
    | Except.error e => Except.error e
    | Except.ok res =>
      match spectra_compute_aux m cg t n data tol maxiter no_gpu fuel
          ((k :: ks).drop n_parallel_scalar) with
      | Except.error e => Except.error e
      | Except.ok rest => Except.ok (res ++ rest)

/-- `CuPyFilter._spectra_compute`. -/
def spectra_compute (m : ℕ) (cg : CG m) (t : Triplets) (n : ℕ)
    (kl : List ℚ) (data : Fin m → ℚ) (tol : ℚ) (maxiter : ℕ) (no_gpu : ℕ) :
    Except SolverNotConvergedError (List (Fin m → ℚ)) :=
  spectra_compute_aux m cg t n data tol maxiter no_gpu kl.length kl

/-- `CuPyFilter._many_compute_full`: both component lists are chunked by 12,
each chunk element `i` is solved on `jnp.concatenate((ux_chunk[i],
vy_chunk[i]))`, and each result is split into `tts[0:n2d]` appended to `oux`
and `tts[n2d:2*n2d]` appended to `ovy`. -/
def many_compute_full_aux (m : ℕ) (cg : CG (m + m)) (t : Triplets) (n : ℕ)
    (kl : ℚ) (tol : ℚ) (maxiter : ℕ) (no_gpu : ℕ) :
    ℕ → List (Fin m → ℚ) → List (Fin m → ℚ) →
    Except SolverNotConvergedError (List (Fin m → ℚ) × List (Fin m → ℚ))
  | _, [], _ => Except.ok ([], [])
  | 0, _ :: _, _ => Except.ok ([], [])
  | fuel + 1, u :: us, vy =>
    let ux_chunk := (u :: us).take n_parallel_full
    let vy_chunk := vy.take n_parallel_full
    let futures := (ux_chunk.zip vy_chunk).enum.map
      (fun p => helper_full m cg t n kl tol maxiter
        (Fin.append p.2.1 p.2.2) (p.1 % no_gpu))
    match collect futures with
    | Except.error e => Except.error e
    | Except.ok res =>
      match many_compute_full_aux m cg t n kl tol maxiter no_gpu fuel
          ((u :: us).drop n_parallel_full) (vy.drop n_parallel_full) with
      | Except.error e => Except.error e
      | Except.ok rest =>
        Except.ok (res.map (firstHalf m) ++ rest.1,
                   res.map (secondHalf m) ++ rest.2)

/-- `CuPyFilter._many_compute_full`. -/
def many_compute_full (m : ℕ) (cg : CG (m + m)) (t : Triplets) (n : ℕ)
    (kl : ℚ) (ux vy : List (Fin m → ℚ)) (tol : ℚ) (maxiter : ℕ)
    (no_gpu : ℕ) :
    Except SolverNotConvergedError (List (Fin m → ℚ) × List (Fin m → ℚ)) :=
  many_compute_full_aux m cg t n kl tol maxiter no_gpu ux.length ux vy

/-- `CuPyFilter._spectra_compute_full`: `ttuv = jnp.concatenate((ux, vy))`
once, then the wavelength list is chunked by 12 and each result split into
halves. -/
def spectra_compute_full_aux (m : ℕ) (cg : CG (m + m)) (t : Triplets)
    (n : ℕ) (ttuv : Fin (m + m) → ℚ) (tol : ℚ) (maxiter : ℕ) (no_gpu : ℕ) :
    ℕ → List ℚ →
    Except SolverNotConvergedError (List (Fin m → ℚ) × List (Fin m → ℚ))
  | _, [] => Except.ok ([], [])
  | 0, _ :: _ => Except.ok ([], [])
  | fuel + 1, k :: ks =>
    let kl_chunk := (k :: ks).take n_parallel_full
    let futures := kl_chunk.enum.map
      (fun p => helper_full m cg t n p.2 tol maxiter ttuv (p.1 % no_gpu))
    match collect futures with
    | Except.error e => Except.error e
    | Except.ok res =>
      match spectra_compute_full_aux m cg t n ttuv tol maxiter no_gpu fuel
          ((k :: ks).drop n_parallel_full) with
      | Except.error e => Except.error e
      | Except.ok rest =>
        Except.ok (res.map (firstHalf m) ++ rest.1,
                   res.map (secondHalf m) ++ rest.2)

/-- `CuPyFilter._spectra_compute_full`. -/
def spectra_compute_full (m : ℕ) (cg : CG (m + m)) (t : Triplets) (n : ℕ)
    (kl : List ℚ) (ux vy : Fin m → ℚ) (tol : ℚ) (maxiter : ℕ) (no_gpu : ℕ) :
    Except SolverNotConvergedError (List (Fin m → ℚ) × List (Fin m → ℚ)) :=
  spectra_compute_full_aux m cg t n (Fin.append ux vy) tol maxiter no_gpu
    kl.length kl

/-- Spec-side comparison definition for the filter-matrix claim, following
the spec's words: the `n`-fold sparse matrix self-product (so `1` factor for
`n = 1`), written as an explicit iterated product rather than the source's
`**` operator. -/
def nFoldSelfProduct (m : ℕ) (S : Matrix (Fin m) (Fin m) ℚ) :
    ℕ → Matrix (Fin m) (Fin m) ℚ
  | 0 => 1
  | k + 1 => nFoldSelfProduct m S k * S

/-- `InvalidDimensionError` of the spec's error taxonomy (declared in
`implicit_filter._utils`, a module of the repository that is not among the
sources under verification). -/
structure InvalidDimensionError where
  message : String
deriving DecidableEq

/-- Modelled from the spec: sparse operator assembly guarded by the bounds
check of spec sections 4.1 and 7 — assembly "fails with an
`InvalidDimensionError` if any index exceeds the configured matrix size"
and is "never silently clamped".  The check is repository code outside the
sources under verification (`_utils` and base-class callers); only the
`csc_matrix` call site appears in `cupy_filter.py`. -/
def assemble_checked (t : Triplets) (kl : ℚ) (m : ℕ) :
    Except InvalidDimensionError (Matrix (Fin m) (Fin m) ℚ) :=
  if (t.ii.any fun idx => m ≤ idx) || (t.jj.any fun idx => m ≤ idx) then
    Except.error { message := "Triplet index out of bounds for matrix size" }
  else
    Except.ok (assembleS t kl m)

/-- `Filter.many_compute_velocity` in `filter.py`: a concrete method (no
`abstractmethod` decorator, unlike its siblings) whose whole body is the
statement `pass`, so a call on a subclass that does not override it returns
Python's `None`.  The return value is modelled as an `Option` of the
documented tuple of two lists of filtered arrays. -/
def Filter_many_compute_velocity (m : ℕ) (n : ℕ) (k : ℚ)
    (ux vy : List (Fin m → ℚ)) :
    Option (List (Fin m → ℚ) × List (Fin m → ℚ)) :=
  have _ := (n, k, ux, vy)
  none

/-- The conjugate-gradient call exactly as `_compute` / `_compute_full`
issue it: on the filter matrix, with right-hand side
`ttw = b - Smat @ b`. -/
def cgStep (s : ℕ) (cg : CG s) (t : Triplets) (n : ℕ) (kl : ℚ)
    (b : Fin s → ℚ) (tol : ℚ) (maxiter : ℕ) : (Fin s → ℚ) × ℤ :=
  cg (filterMatrix t kl n s) (b - (filterMatrix t kl n s).mulVec b) tol
    maxiter

/-- Decidable equality of modelled call results, so that the development can
be evaluated on concrete inputs. -/
instance instDecidableEqExcept {E V : Type} [DecidableEq E] [DecidableEq V] :
    DecidableEq (Except E V) := fun x y =>
  match x, y with
  | Except.ok a, Except.ok b =>
    if h : a = b then Decidable.isTrue (by rw [h])
    else Decidable.isFalse (fun hc => h (Except.ok.inj hc))
  | Except.error a, Except.error b =>
    if h : a = b then Decidable.isTrue (by rw [h])
    else Decidable.isFalse (fun hc => h (Except.error.inj hc))
  | Except.ok _, Except.error _ => Decidable.isFalse (fun hc => Except.noConfusion hc)
  | Except.error _, Except.ok _ => Decidable.isFalse (fun hc => Except.noConfusion hc)

theorem enum_map_apply_snd {α β : Type} (l : List α) (g : α → β) :
    l.enum.map (fun p => g p.2) = l.map g := by
  have h : (fun p : ℕ × α => g p.2) = g ∘ Prod.snd := rfl
  rw [h, ← List.map_map, List.enum_map_snd]

theorem nFoldSelfProduct_eq_pow (m : ℕ) (S : Matrix (Fin m) (Fin m) ℚ) :
    ∀ n : ℕ, nFoldSelfProduct m S n = S ^ n
  | 0 => by rw [nFoldSelfProduct, pow_zero]
  | k + 1 => by rw [nFoldSelfProduct, nFoldSelfProduct_eq_pow m S k, pow_succ]

theorem foldl_cooEntryAdd_apply (m : ℕ) :
    ∀ (es : List (ℚ × ℕ × ℕ)) (A : Matrix (Fin m) (Fin m) ℚ) (r c : Fin m),
      (es.foldl (cooEntryAdd m) A) r c =
        A r c +
          (es.map (fun e => if e.2.1 = r.val ∧ e.2.2 = c.val then e.1 else 0)).sum
  | [], A, r, c => by simp
  | e :: es, A, r, c => by
    rw [List.foldl_cons, foldl_cooEntryAdd_apply m es (cooEntryAdd m A e) r c]
    by_cases h : e.2.1 = r.val ∧ e.2.2 = c.val
    · simp only [cooEntryAdd, Matrix.of_apply, if_pos h, List.map_cons,
        List.sum_cons]
      ring
    · simp only [cooEntryAdd, Matrix.of_apply, if_neg h, List.map_cons,
        List.sum_cons, if_neg h]
      ring

theorem zip_if_sum_eq_range_sum :
    ∀ (data : List ℚ) (row col : List ℕ), row.length = data.length →
       col.length = data.length → ∀ rv cv : ℕ,
      ((data.zip (row.zip col)).map
        (fun e => if e.2.1 = rv ∧ e.2.2 = cv then e.1 else 0)).sum =
        ∑ k in Finset.range data.length,
          if row.getD k 0 = rv ∧ col.getD k 0 = cv then data.getD k 0 else 0
  | [], _, _, _, _, _, _ => by simp
  | d :: ds, [], _, h1, _, _, _ => by simp at h1
  | d :: ds, r :: rs, [], _, h2, _, _ => by simp at h2
  | d :: ds, r :: rs, c :: cs, h1, h2, rv, cv => by
    simp only [List.length_cons, Nat.succ.injEq] at h1 h2
    rw [List.zip_cons_cons, List.zip_cons_cons, List.map_cons, List.sum_cons,
      List.length_cons, Finset.sum_range_succ']
    rw [zip_if_sum_eq_range_sum ds rs cs h1 h2 rv cv]
    simp only [List.getD_cons_succ, List.getD_cons_zero]
    ring

theorem collect_map_ok {E V W : Type} (f : V → Except E W) (g : V → W) :
    ∀ l : List V, (∀ b ∈ l, f b = Except.ok (g b)) →
      collect (l.map f) = Except.ok (l.map g)
  | [], _ => rfl
  | x :: xs, h => by
    have hx := h x (List.mem_cons_self x xs)
    have ih := collect_map_ok f g xs (fun b hb => h b (List.mem_cons_of_mem x hb))
    simp only [List.map_cons, collect, hx, ih]

theorem collect_map_append {E V W : Type} (f : V → Except E W) :
    ∀ xs ys : List V,
      collect ((xs ++ ys).map f) =
        Except.bind (collect (xs.map f))
          (fun a => Except.map (fun b => a ++ b) (collect (ys.map f)))
  | [], ys => by
    cases h : collect (ys.map f) <;>
      simp [collect, Except.bind, Except.map, h]
  | x :: xs, ys => by
    have ih := collect_map_append f xs ys
    simp only [List.cons_append, List.map_cons, collect, List.append_eq]
    cases hx : f x
    · simp [Except.bind]
    · rw [ih]
      cases h1 : collect (List.map f xs)
      · simp [Except.bind]
      · cases h2 : collect (List.map f ys) <;> simp [Except.bind, Except.map]

theorem collect_map_error_of_mem {E V W : Type} (f : V → Except E W) :
    ∀ (l : List V) (b : V) (e : E), b ∈ l → f b = Except.error e →
      ∃ e', collect (l.map f) = Except.error e'
  | [], b, _, hmem, _ => absurd hmem (List.not_mem_nil b)
  | x :: xs, b, e, hmem, hb => by
    cases hx : f x with
    | error ea => exact ⟨ea, by simp [collect, hx]⟩
    | ok r =>
      rcases List.mem_cons.mp hmem with h | h
      · rw [h] at hb; rw [hb] at hx; exact absurd hx (by simp)
      · rcases collect_map_error_of_mem f xs b e h hb with ⟨e', he'⟩
        exact ⟨e', by simp [collect, hx, he']⟩

theorem many_compute_aux_eq_collect (m : ℕ) (cg : CG m) (t : Triplets)
    (n : ℕ) (kl : ℚ) (tol : ℚ) (maxiter : ℕ) (no_gpu : ℕ) :
    ∀ (fuel : ℕ) (data : List (Fin m → ℚ)), data.length ≤ fuel →
      many_compute_aux m cg t n kl tol maxiter no_gpu fuel data =
        collect (data.map (fun b => compute m cg t n kl b tol maxiter))
  | fuel, [], _ => by cases fuel <;> simp [many_compute_aux, collect]
  | 0, d :: ds, h => by simp at h
  | fuel + 1, d :: ds, h => by
    have hlen : ((d :: ds).drop n_parallel_scalar).length ≤ fuel := by
      simp only [List.length_drop, List.length_cons, n_parallel_scalar]
      simp only [List.length_cons] at h
      omega
    have ih := many_compute_aux_eq_collect m cg t n kl tol maxiter no_gpu fuel
      ((d :: ds).drop n_parallel_scalar) hlen
    have hfut : ((d :: ds).take n_parallel_scalar).enum.map
        (fun p => helper m cg t n kl tol maxiter p.2 (p.1 % no_gpu)) =
        ((d :: ds).take n_parallel_scalar).map
          (fun b => compute m cg t n kl b tol maxiter) :=
      enum_map_apply_snd ((d :: ds).take n_parallel_scalar)
        (fun b => compute m cg t n kl b tol maxiter)
    have hsplit := collect_map_append
      (fun b => compute m cg t n kl b tol maxiter)
      ((d :: ds).take n_parallel_scalar) ((d :: ds).drop n_parallel_scalar)
    rw [List.take_append_drop] at hsplit
    rw [many_compute_aux]
    simp only [hfut, ih, hsplit]
    cases h1 : collect (((d :: ds).take n_parallel_scalar).map
        (fun b => compute m cg t n kl b tol maxiter))
    · simp [Except.bind]
    · cases h2 : collect (((d :: ds).drop n_parallel_scalar).map
          (fun b => compute m cg t n kl b tol maxiter)) <;>
        simp [Except.bind, Except.map]

/-- `_many_compute` computes, in order, exactly the per-task single solves. -/
theorem many_compute_eq_collect (m : ℕ) (cg : CG m) (t : Triplets) (n : ℕ)
    (kl : ℚ) (data : List (Fin m → ℚ)) (tol : ℚ) (maxiter : ℕ)
    (no_gpu : ℕ) :
    many_compute m cg t n kl data tol maxiter no_gpu =
      collect (data.map (fun b => compute m cg t n kl b tol maxiter)) :=
  many_compute_aux_eq_collect m cg t n kl tol maxiter no_gpu data.length data
    le_rfl

theorem spectra_compute_aux_eq_collect (m : ℕ) (cg : CG m) (t : Triplets)
    (n : ℕ) (data : Fin m → ℚ) (tol : ℚ) (maxiter : ℕ) (no_gpu : ℕ) :
    ∀ (fuel : ℕ) (kl : List ℚ), kl.length ≤ fuel →
      spectra_compute_aux m cg t n data tol maxiter no_gpu fuel kl =
        collect (kl.map (fun klx => compute m cg t n klx data tol maxiter))
  | fuel, [], _ => by cases fuel <;> simp [spectra_compute_aux, collect]
  | 0, k :: ks, h => by simp at h
  | fuel + 1, k :: ks, h => by
    have hlen : ((k :: ks).drop n_parallel_scalar).length ≤ fuel := by
      simp only [List.length_drop, List.length_cons, n_parallel_scalar]
      simp only [List.length_cons] at h
      omega
    have ih := spectra_compute_aux_eq_collect m cg t n data tol maxiter no_gpu
      fuel ((k :: ks).drop n_parallel_scalar) hlen
    have hfut : ((k :: ks).take n_parallel_scalar).enum.map
        (fun p => helper m cg t n p.2 tol maxiter data (p.1 % no_gpu)) =
        ((k :: ks).take n_parallel_scalar).map
          (fun klx => compute m cg t n klx data tol maxiter) :=
      enum_map_apply_snd ((k :: ks).take n_parallel_scalar)
        (fun klx => compute m cg t n klx data tol maxiter)
    have hsplit := collect_map_append
      (fun klx => compute m cg t n klx data tol maxiter)
      ((k :: ks).take n_parallel_scalar) ((k :: ks).drop n_parallel_scalar)
    rw [List.take_append_drop] at hsplit
    rw [spectra_compute_aux]
    simp only [hfut, ih, hsplit]
    cases h1 : collect (((k :: ks).take n_parallel_scalar).map
        (fun klx => compute m cg t n klx data tol maxiter))
    · simp [Except.bind]
    · cases h2 : collect (((k :: ks).drop n_parallel_scalar).map
          (fun klx => compute m cg t n klx data tol maxiter)) <;>
        simp [Except.bind, Except.map]

/-- `_spectra_compute` computes, in order, exactly the per-wavelength single
solves. -/
theorem spectra_compute_eq_collect (m : ℕ) (cg : CG m) (t : Triplets)
    (n : ℕ) (kl : List ℚ) (data : Fin m → ℚ) (tol : ℚ) (maxiter : ℕ)
    (no_gpu : ℕ) :
    spectra_compute m cg t n kl data tol maxiter no_gpu =
      collect (kl.map (fun klx => compute m cg t n klx data tol maxiter)) :=
  spectra_compute_aux_eq_collect m cg t n data tol maxiter no_gpu kl.length kl
    le_rfl

theorem many_compute_full_aux_eq_collect (m : ℕ) (cg : CG (m + m))
    (t : Triplets) (n : ℕ) (kl : ℚ) (tol : ℚ) (maxiter : ℕ) (no_gpu : ℕ) :
    ∀ (fuel : ℕ) (ux vy : List (Fin m → ℚ)), ux.length ≤ fuel →
      many_compute_full_aux m cg t n kl tol maxiter no_gpu fuel ux vy =
        Except.map
          (fun res => (res.map (firstHalf m), res.map (secondHalf m)))
          (collect ((ux.zip vy).map
            (fun p => compute_full m cg t n kl (Fin.append p.1 p.2) tol
              maxiter)))
  | fuel, [], vy, _ => by
    cases fuel <;> simp [many_compute_full_aux, collect, Except.map]
  | 0, u :: us, vy, h => by simp at h
  | fuel + 1, u :: us, vy, h => by
    have hlen : ((u :: us).drop n_parallel_full).length ≤ fuel := by
      simp only [List.length_drop, List.length_cons, n_parallel_full]
      simp only [List.length_cons] at h
      omega
    have ih := many_compute_full_aux_eq_collect m cg t n kl tol maxiter no_gpu
      fuel ((u :: us).drop n_parallel_full) (vy.drop n_parallel_full) hlen
    have hzt : ((u :: us).take n_parallel_full).zip (vy.take n_parallel_full) =
        ((u :: us).zip vy).take n_parallel_full := by
      simp [List.zip, List.take_zipWith]
    have hzd : ((u :: us).drop n_parallel_full).zip (vy.drop n_parallel_full) =
        ((u :: us).zip vy).drop n_parallel_full := by
      simp [List.zip, List.drop_zipWith]
    rw [hzd] at ih
    have hfut : (((u :: us).take n_parallel_full).zip
          (vy.take n_parallel_full)).enum.map
        (fun p => helper_full m cg t n kl tol maxiter
          (Fin.append p.2.1 p.2.2) (p.1 % no_gpu)) =
        (((u :: us).zip vy).take n_parallel_full).map
          (fun q => compute_full m cg t n kl (Fin.append q.1 q.2) tol
            maxiter) := by
      rw [← hzt]
      exact enum_map_apply_snd
        (((u :: us).take n_parallel_full).zip (vy.take n_parallel_full))
        (fun q => compute_full m cg t n kl (Fin.append q.1 q.2) tol maxiter)
    have hsplit := collect_map_append
      (fun q => compute_full m cg t n kl (Fin.append q.1 q.2) tol maxiter)
      (((u :: us).zip vy).take n_parallel_full)
      (((u :: us).zip vy).drop n_parallel_full)
    rw [List.take_append_drop] at hsplit
    rw [many_compute_full_aux]
    simp only [hfut, ih, hsplit]
    cases h1 : collect ((((u :: us).zip vy).take n_parallel_full).map
        (fun q => compute_full m cg t n kl (Fin.append q.1 q.2) tol maxiter))
    · simp [Except.bind, Except.map]
    · cases h2 : collect ((((u :: us).zip vy).drop n_parallel_full).map
          (fun q => compute_full m cg t n kl (Fin.append q.1 q.2) tol
            maxiter)) <;>
        simp [Except.bind, Except.map]

/-- `_many_compute_full` computes, in order, the per-pair combined solves and
splits each into halves. -/
theorem many_compute_full_eq_collect (m : ℕ) (cg : CG (m + m))
    (t : Triplets) (n : ℕ) (kl : ℚ) (ux vy : List (Fin m → ℚ)) (tol : ℚ)
    (maxiter : ℕ) (no_gpu : ℕ) :
    many_compute_full m cg t n kl ux vy tol maxiter no_gpu =
      Except.map
        (fun res => (res.map (firstHalf m), res.map (secondHalf m)))
        (collect ((ux.zip vy).map
          (fun p => compute_full m cg t n kl (Fin.append p.1 p.2) tol
            maxiter))) :=
  many_compute_full_aux_eq_collect m cg t n kl tol maxiter no_gpu ux.length
    ux vy le_rfl

theorem spectra_compute_full_aux_eq_collect (m : ℕ) (cg : CG (m + m))
    (t : Triplets) (n : ℕ) (ttuv : Fin (m + m) → ℚ) (tol : ℚ) (maxiter : ℕ)
    (no_gpu : ℕ) :
    ∀ (fuel : ℕ) (kl : List ℚ), kl.length ≤ fuel →
      spectra_compute_full_aux m cg t n ttuv tol maxiter no_gpu fuel kl =
        Except.map
          (fun res => (res.map (firstHalf m), res.map (secondHalf m)))
          (collect (kl.map
            (fun klx => compute_full m cg t n klx ttuv tol maxiter)))
  | fuel, [], _ => by
    cases fuel <;> simp [spectra_compute_full_aux, collect, Except.map]
  | 0, k :: ks, h => by simp at h
  | fuel + 1, k :: ks, h => by
    have hlen : ((k :: ks).drop n_parallel_full).length ≤ fuel := by
      simp only [List.length_drop, List.length_cons, n_parallel_full]
      simp only [List.length_cons] at h
      omega
    have ih := spectra_compute_full_aux_eq_collect m cg t n ttuv tol maxiter
      no_gpu fuel ((k :: ks).drop n_parallel_full) hlen
    have hfut : ((k :: ks).take n_parallel_full).enum.map
        (fun p => helper_full m cg t n p.2 tol maxiter ttuv (p.1 % no_gpu)) =
        ((k :: ks).take n_parallel_full).map
          (fun klx => compute_full m cg t n klx ttuv tol maxiter) :=
      enum_map_apply_snd ((k :: ks).take n_parallel_full)
        (fun klx => compute_full m cg t n klx ttuv tol maxiter)
    have hsplit := collect_map_append
      (fun klx => compute_full m cg t n klx ttuv tol maxiter)
      ((k :: ks).take n_parallel_full) ((k :: ks).drop n_parallel_full)
    rw [List.take_append_drop] at hsplit
    rw [spectra_compute_full_aux]
    simp only [hfut, ih, hsplit]
    cases h1 : collect (((k :: ks).take n_parallel_full).map
        (fun klx => compute_full m cg t n klx ttuv tol maxiter))
    · simp [Except.bind, Except.map]
    · cases h2 : collect (((k :: ks).drop n_parallel_full).map
          (fun klx => compute_full m cg t n klx ttuv tol maxiter)) <;>
        simp [Except.bind, Except.map]

/-- `_spectra_compute_full` computes, in order, the per-wavelength combined
solves on the concatenated input and splits each into halves. -/
theorem spectra_compute_full_eq_collect (m : ℕ) (cg : CG (m + m))
    (t : Triplets) (n : ℕ) (kl : List ℚ) (ux vy : Fin m → ℚ) (tol : ℚ)
    (maxiter : ℕ) (no_gpu : ℕ) :
    spectra_compute_full m cg t n kl ux vy tol maxiter no_gpu =
      Except.map
        (fun res => (res.map (firstHalf m), res.map (secondHalf m)))
        (collect (kl.map
          (fun klx => compute_full m cg t n klx (Fin.append ux vy) tol
            maxiter))) :=
  spectra_compute_full_aux_eq_collect m cg t n (Fin.append ux vy) tol maxiter
    no_gpu kl.length kl le_rfl

/-- On empty triplet arrays the assembled operator is zero, so the filter
matrix of order 1 is the identity.  Used to evaluate the model on concrete
inputs. -/
theorem filterMatrix_empty (kl : ℚ) (m : ℕ) :
    filterMatrix ⟨[], [], []⟩ kl 1 m = 1 := by
  have h : assembleS ⟨[], [], []⟩ kl m = 0 := rfl
  rw [filterMatrix, h, pow_one, smul_zero, add_zero]

/-- With empty triplets and an exact conjugate-gradient stub, the scalar
solve returns its input unchanged. -/
theorem compute_empty_id (m : ℕ) (kl : ℚ) (b : Fin m → ℚ) (tol : ℚ)
    (maxiter : ℕ) :
    compute m (fun _ w _ _ => (w, 0)) ⟨[], [], []⟩ 1 kl b tol maxiter =
      Except.ok b := by
  simp [compute, filterMatrix_empty, Matrix.one_mulVec, sub_add_cancel]

/-- With empty triplets and an exact conjugate-gradient stub, the combined
solve returns its input unchanged. -/
theorem compute_full_empty_id (m : ℕ) (kl : ℚ) (b : Fin (m + m) → ℚ)
    (tol : ℚ) (maxiter : ℕ) :
    compute_full m (fun _ w _ _ => (w, 0)) ⟨[], [], []⟩ 1 kl b tol maxiter =
      Except.ok b := by
  simp [compute_full, filterMatrix_empty, Matrix.one_mulVec, sub_add_cancel]

/-- Claim C1: `_compute` uses the perturbation reformulation — for input
`b` and filter matrix `M` it computes `w = b - M b`, hands `(M, w)` to the
conjugate-gradient routine, and returns `x = y + b`; consequently, when the
inner solve is exact, the returned `x` satisfies `M x = b`.
`_compute_full` uses the identical reformulation on the doubled system. -/
theorem perturbation_reformulation (m : ℕ) (cg : CG m) (cgF : CG (m + m))
    (t tF : Triplets) (n nF : ℕ) (kl klF tol tolF : ℚ)
    (maxiter maxiterF : ℕ) (b : Fin m → ℚ) (bF : Fin (m + m) → ℚ)
    (h0 : (cgStep m cg t n kl b tol maxiter).2 = 0)
    (hex : (filterMatrix t kl n m).mulVec
        (cgStep m cg t n kl b tol maxiter).1 =
      b - (filterMatrix t kl n m).mulVec b)
    (h0F : (cgStep (m + m) cgF tF nF klF bF tolF maxiterF).2 = 0)
    (hexF : (filterMatrix tF klF nF (m + m)).mulVec
        (cgStep (m + m) cgF tF nF klF bF tolF maxiterF).1 =
      bF - (filterMatrix tF klF nF (m + m)).mulVec bF) :
    compute m cg t n kl b tol maxiter =
      Except.ok ((cgStep m cg t n kl b tol maxiter).1 + b) ∧
    (filterMatrix t kl n m).mulVec
        ((cgStep m cg t n kl b tol maxiter).1 + b) = b ∧
    compute_full m cgF tF nF klF bF tolF maxiterF =
      Except.ok ((cgStep (m + m) cgF tF nF klF bF tolF maxiterF).1 + bF) ∧
    (filterMatrix tF klF nF (m + m)).mulVec
        ((cgStep (m + m) cgF tF nF klF bF tolF maxiterF).1 + bF) = bF := by
  refine ⟨?_, ?_, ?_, ?_⟩
  · simp only [cgStep] at h0 ⊢
    simp [compute, h0]
  · rw [Matrix.mulVec_add, hex, sub_add_cancel]
  · simp only [cgStep] at h0F ⊢
    simp [compute_full, h0F]
  · rw [Matrix.mulVec_add, hexF, sub_add_cancel]

/-- Witness for C1: a one-node mesh with empty triplets, so the filter
matrix is the identity, and a conjugate-gradient stub that returns the
right-hand side with exit code 0 (exact there). -/
theorem perturbation_reformulation_witness :
    ((cgStep 1 (fun _ w _ _ => (w, 0)) ⟨[], [], []⟩ 1 1 (fun _ => 3) 1
        5).2 = 0 ∧
     (filterMatrix ⟨[], [], []⟩ 1 1 1).mulVec
        (cgStep 1 (fun _ w _ _ => (w, 0)) ⟨[], [], []⟩ 1 1 (fun _ => 3) 1
          5).1 =
      (fun _ => 3) - (filterMatrix ⟨[], [], []⟩ 1 1 1).mulVec
        (fun _ => 3)) ∧
    compute 1 (fun _ w _ _ => (w, 0)) ⟨[], [], []⟩ 1 1 (fun _ => 3) 1 5 =
      Except.ok ((cgStep 1 (fun _ w _ _ => (w, 0)) ⟨[], [], []⟩ 1 1
        (fun _ => 3) 1 5).1 + fun _ => 3) ∧
    (filterMatrix ⟨[], [], []⟩ 1 1 1).mulVec
        ((cgStep 1 (fun _ w _ _ => (w, 0)) ⟨[], [], []⟩ 1 1 (fun _ => 3) 1
          5).1 + fun _ => 3) = (fun _ => 3) ∧
    compute_full 1 (fun _ w _ _ => (w, 0)) ⟨[], [], []⟩ 1 1 (fun _ => 2) 1
        5 =
      Except.ok ((cgStep (1 + 1) (fun _ w _ _ => (w, 0)) ⟨[], [], []⟩ 1 1
        (fun _ => 2) 1 5).1 + fun _ => 2) ∧
    (filterMatrix ⟨[], [], []⟩ 1 1 (1 + 1)).mulVec
        ((cgStep (1 + 1) (fun _ w _ _ => (w, 0)) ⟨[], [], []⟩ 1 1
          (fun _ => 2) 1 5).1 + fun _ => 2) = (fun _ => 2) :=
  ⟨⟨rfl, by simp [cgStep, filterMatrix_empty, Matrix.one_mulVec]⟩,
    perturbation_reformulation 1 (fun _ w _ _ => (w, 0))
      (fun _ w _ _ => (w, 0)) ⟨[], [], []⟩ ⟨[], [], []⟩ 1 1 1 1 1 1 5 5
      (fun _ => 3) (fun _ => 2) rfl
      (by simp [cgStep, filterMatrix_empty, Matrix.one_mulVec]) rfl
      (by simp [cgStep, filterMatrix_empty, Matrix.one_mulVec])⟩

/-- Claim C2: the filter matrix built inside each solve equals
`M = I + 0.5 * S^n` with `S^n` the `n`-fold sparse matrix self-product
(not an elementwise power); in particular for `n = 1`, `M = I + 0.5 * S`. -/
theorem filter_matrix_construction (t : Triplets) (kl : ℚ) (m n : ℕ)
    (h : 1 ≤ n) :
    filterMatrix t kl n m =
      1 + (1 / 2 : ℚ) • nFoldSelfProduct m (assembleS t kl m) n ∧
    filterMatrix t kl 1 m = 1 + (1 / 2 : ℚ) • assembleS t kl m := by
  have _ := h
  constructor
  · rw [filterMatrix, nFoldSelfProduct_eq_pow]
  · rw [filterMatrix, pow_one]

/-- Witness for C2 at `n = 2` on a one-entry triplet. -/
theorem filter_matrix_construction_witness :
    1 ≤ 2 ∧
    (filterMatrix ⟨[4], [0], [0]⟩ 1 2 1 =
      1 + (1 / 2 : ℚ) • nFoldSelfProduct 1 (assembleS ⟨[4], [0], [0]⟩ 1 1)
        2 ∧
     filterMatrix ⟨[4], [0], [0]⟩ 1 1 1 =
      1 + (1 / 2 : ℚ) • assembleS ⟨[4], [0], [0]⟩ 1 1) :=
  ⟨by decide, filter_matrix_construction ⟨[4], [0], [0]⟩ 1 1 2 (by decide)⟩

/-- Claim C3: the assembled operator entry at `(i, j)` equals the sum of
`values[k] / kl^2` over all triplet indices `k` with `row_index[k] = i` and
`col_index[k] = j`, duplicate pairs accumulating additively.  (The
embedding is a pure function of the triplet arrays `(_ss, _ii, _jj)`, which
are therefore not mutated; the scalar solve instantiates the side at `N`
and the combined solve at `2N`.) -/
theorem operator_assembly_entries (t : Triplets) (kl : ℚ) (m : ℕ)
    (i j : Fin m) (h1 : t.ii.length = t.ss.length)
    (h2 : t.jj.length = t.ss.length) :
    assembleS t kl m i j =
      ∑ k in Finset.range t.ss.length,
        if t.ii.getD k 0 = i.val ∧ t.jj.getD k 0 = j.val
        then t.ss.getD k 0 / kl ^ 2 else 0 := by
  rw [assembleS, csc_matrix, foldl_cooEntryAdd_apply, Matrix.zero_apply,
    zero_add]
  rw [zip_if_sum_eq_range_sum (t.ss.map fun v => v * (1 / kl ^ 2)) t.ii t.jj
    (by simp [h1]) (by simp [h2]) i.val j.val]
  rw [List.length_map]
  apply Finset.sum_congr rfl
  intro k _
  have hd : (t.ss.map fun v => v * (1 / kl ^ 2)).getD k 0 =
      t.ss.getD k 0 * (1 / kl ^ 2) := by
    rw [List.getD_eq_getElem?_getD, List.getD_eq_getElem?_getD,
      List.getElem?_map]
    cases t.ss[k]? <;> simp
  rw [hd]
  by_cases hc : t.ii.getD k 0 = i.val ∧ t.jj.getD k 0 = j.val
  · rw [if_pos hc, if_pos hc, mul_one_div]
  · rw [if_neg hc, if_neg hc]

/-- Witness for C3 on triplets with a duplicated `(0, 0)` pair, whose values
accumulate additively. -/
theorem operator_assembly_entries_witness :
    (([0, 0, 1] : List ℕ).length = ([1, 2, 3] : List ℚ).length ∧
     ([0, 0, 1] : List ℕ).length = ([1, 2, 3] : List ℚ).length) ∧
    assembleS ⟨[1, 2, 3], [0, 0, 1], [0, 0, 1]⟩ 1 2 0 0 =
      ∑ k in Finset.range ([1, 2, 3] : List ℚ).length,
        if ([0, 0, 1] : List ℕ).getD k 0 = (0 : Fin 2).val ∧
           ([0, 0, 1] : List ℕ).getD k 0 = (0 : Fin 2).val
        then ([1, 2, 3] : List ℚ).getD k 0 / 1 ^ 2 else 0 :=
  ⟨⟨by decide, by decide⟩,
    operator_assembly_entries ⟨[1, 2, 3], [0, 0, 1], [0, 0, 1]⟩ 1 2 0 0
      (by decide) (by decide)⟩

/-- Claim C4: for a many-data batch, the `i`-th element of
`_many_compute`'s output equals the result of calling `_compute` directly
on the `i`-th input, for every index `i` and every device count; output
order matches input order because results are collected in submission
order. -/
theorem many_compute_elementwise (m : ℕ) (cg : CG m) (t : Triplets)
    (n : ℕ) (kl : ℚ) (tol : ℚ) (maxiter : ℕ) (no_gpu : ℕ)
    (data : List (Fin m → ℚ)) (f : (Fin m → ℚ) → (Fin m → ℚ))
    (h : ∀ b ∈ data, compute m cg t n kl b tol maxiter = Except.ok (f b)) :
    many_compute m cg t n kl data tol maxiter no_gpu =
      Except.ok (data.map f) ∧
    ∀ (i : ℕ) (hi : i < data.length) (hi2 : i < (data.map f).length),
      Except.ok ((data.map f).get ⟨i, hi2⟩) =
        compute m cg t n kl (data.get ⟨i, hi⟩) tol maxiter := by
  constructor
  · rw [many_compute_eq_collect]
    exact collect_map_ok _ f data h
  · intro i hi hi2
    have hg : (data.map f).get ⟨i, hi2⟩ = f (data.get ⟨i, hi⟩) := by
      simp [List.getElem_map]
    rw [hg]
    exact (h (data.get ⟨i, hi⟩) (List.get_mem data i hi)).symm

/-- Witness for C4: a two-element batch through the identity filter. -/
theorem many_compute_elementwise_witness :
    (∀ b ∈ [fun _ => (1 : ℚ), fun _ => (2 : ℚ)],
      compute 1 (fun _ w _ _ => (w, 0)) ⟨[], [], []⟩ 1 1 b 1 5 =
        Except.ok (id b)) ∧
    (many_compute 1 (fun _ w _ _ => (w, 0)) ⟨[], [], []⟩ 1 1
        [fun _ => (1 : ℚ), fun _ => (2 : ℚ)] 1 5 1 =
      Except.ok ([fun _ => (1 : ℚ), fun _ => (2 : ℚ)].map id) ∧
    ∀ (i : ℕ)
      (hi : i < ([fun _ => (1 : ℚ), fun _ => (2 : ℚ)] :
        List (Fin 1 → ℚ)).length)
      (hi2 : i < (([fun _ => (1 : ℚ), fun _ => (2 : ℚ)] :
        List (Fin 1 → ℚ)).map id).length),
      Except.ok ((([fun _ => (1 : ℚ), fun _ => (2 : ℚ)] :
          List (Fin 1 → ℚ)).map id).get ⟨i, hi2⟩) =
        compute 1 (fun _ w _ _ => (w, 0)) ⟨[], [], []⟩ 1 1
          (([fun _ => (1 : ℚ), fun _ => (2 : ℚ)] :
            List (Fin 1 → ℚ)).get ⟨i, hi⟩) 1 5) :=
  ⟨fun b _ => compute_empty_id 1 1 b 1 5,
    many_compute_elementwise 1 (fun _ w _ _ => (w, 0)) ⟨[], [], []⟩ 1 1 1 5
      1 [fun _ => (1 : ℚ), fun _ => (2 : ℚ)] id
      (fun b _ => compute_empty_id 1 1 b 1 5)⟩

/-- Claim C5: a nonzero conjugate-gradient exit code makes the solve raise
`SolverNotConvergedError` carrying the raw exit code in its diagnostic and
never return a partially-converged result; the scalar-mode message says
"without metric terms" and the combined-mode message "with metric terms",
so the two failure modes are distinguishable. -/
theorem nonconvergence_raises (m : ℕ) (cg : CG m) (cgF : CG (m + m))
    (t tF : Triplets) (n nF : ℕ) (kl klF tol tolF : ℚ)
    (maxiter maxiterF : ℕ) (b : Fin m → ℚ) (bF : Fin (m + m) → ℚ)
    (h : (cgStep m cg t n kl b tol maxiter).2 ≠ 0)
    (hF : (cgStep (m + m) cgF tF nF klF bF tolF maxiterF).2 ≠ 0) :
    compute m cg t n kl b tol maxiter =
      Except.error
        { message := "Solver has not converged without metric terms",
          diagnostics := ["output code with code: " ++
            toString (cgStep m cg t n kl b tol maxiter).2] } ∧
    compute_full m cgF tF nF klF bF tolF maxiterF =
      Except.error
        { message := "Solver has not converged with metric terms",
          diagnostics := ["output code with code: " ++
            toString (cgStep (m + m) cgF tF nF klF bF tolF maxiterF).2] } ∧
    (∀ v, compute m cg t n kl b tol maxiter ≠ Except.ok v) ∧
    (∀ v, compute_full m cgF tF nF klF bF tolF maxiterF ≠ Except.ok v) ∧
    ("Solver has not converged without metric terms" : String) ≠
      "Solver has not converged with metric terms" := by
  simp only [cgStep] at h hF
  have hc1 : compute m cg t n kl b tol maxiter =
      Except.error
        { message := "Solver has not converged without metric terms",
          diagnostics := ["output code with code: " ++
            toString (cgStep m cg t n kl b tol maxiter).2] } := by
    simp only [compute, cgStep]
    rw [if_pos h]
  have hc2 : compute_full m cgF tF nF klF bF tolF maxiterF =
      Except.error
        { message := "Solver has not converged with metric terms",
          diagnostics := ["output code with code: " ++
            toString (cgStep (m + m) cgF tF nF klF bF tolF
              maxiterF).2] } := by
    simp only [compute_full, cgStep]
    rw [if_pos hF]
  refine ⟨hc1, hc2, ?_, ?_, by decide⟩
  · intro v hv
    rw [hc1] at hv
    exact Except.noConfusion hv
  · intro v hv
    rw [hc2] at hv
    exact Except.noConfusion hv

/-- Witness for C5: a conjugate-gradient stub that always reports exit code
1. -/
theorem nonconvergence_raises_witness :
    ((cgStep 1 (fun _ w _ _ => (w, 1)) ⟨[], [], []⟩ 1 1 (fun _ => 3) 1
        5).2 ≠ 0 ∧
     (cgStep (1 + 1) (fun _ w _ _ => (w, 1)) ⟨[], [], []⟩ 1 1
        (fun _ => 2) 1 5).2 ≠ 0) ∧
    compute 1 (fun _ w _ _ => (w, 1)) ⟨[], [], []⟩ 1 1 (fun _ => 3) 1 5 =
      Except.error
        { message := "Solver has not converged without metric terms",
          diagnostics := ["output code with code: " ++
            toString (cgStep 1 (fun _ w _ _ => (w, 1)) ⟨[], [], []⟩ 1 1
              (fun _ => 3) 1 5).2] } ∧
    compute_full 1 (fun _ w _ _ => (w, 1)) ⟨[], [], []⟩ 1 1 (fun _ => 2) 1
        5 =
      Except.error
        { message := "Solver has not converged with metric terms",
          diagnostics := ["output code with code: " ++
            toString (cgStep (1 + 1) (fun _ w _ _ => (w, 1)) ⟨[], [], []⟩
              1 1 (fun _ => 2) 1 5).2] } ∧
    (∀ v, compute 1 (fun _ w _ _ => (w, 1)) ⟨[], [], []⟩ 1 1 (fun _ => 3)
      1 5 ≠ Except.ok v) ∧
    (∀ v, compute_full 1 (fun _ w _ _ => (w, 1)) ⟨[], [], []⟩ 1 1
      (fun _ => 2) 1 5 ≠ Except.ok v) ∧
    ("Solver has not converged without metric terms" : String) ≠
      "Solver has not converged with metric terms" :=
  ⟨⟨by decide, by decide⟩,
    nonconvergence_raises 1 (fun _ w _ _ => (w, 1)) (fun _ w _ _ => (w, 1))
      ⟨[], [], []⟩ ⟨[], [], []⟩ 1 1 1 1 1 1 5 5 (fun _ => 3) (fun _ => 2)
      (by decide) (by decide)⟩

/-- Claim C6: if any triplet row or column index equals or exceeds the
configured matrix size, assembly fails with `InvalidDimensionError` and no
(truncated or clamped) operator is returned.  The check is modelled from
the spec (`assemble_checked`), since the repository code implementing it is
not among the sources under verification. -/
theorem assembly_out_of_bounds (t : Triplets) (kl : ℚ) (m : ℕ)
    (h : (∃ r ∈ t.ii, m ≤ r) ∨ ∃ c ∈ t.jj, m ≤ c) :
    (∃ e, assemble_checked t kl m = Except.error e) ∧
    ∀ A, assemble_checked t kl m ≠ Except.ok A := by
  have hcond : ((t.ii.any fun idx => m ≤ idx) ||
      (t.jj.any fun idx => m ≤ idx)) = true := by
    rcases h with ⟨r, hr, hm⟩ | ⟨c, hc, hm⟩
    · simp only [Bool.or_eq_true, List.any_eq_true]
      exact Or.inl ⟨r, hr, by simpa using hm⟩
    · simp only [Bool.or_eq_true, List.any_eq_true]
      exact Or.inr ⟨c, hc, by simpa using hm⟩
  constructor
  · exact ⟨_, by rw [assemble_checked, if_pos hcond]⟩
  · intro A hA
    rw [assemble_checked, if_pos hcond] at hA
    exact Except.noConfusion hA

/-- Witness for C6: a triplet whose row index 5 exceeds the declared side
3. -/
theorem assembly_out_of_bounds_witness :
    ((∃ r ∈ ([5] : List ℕ), 3 ≤ r) ∨ ∃ c ∈ ([0] : List ℕ), 3 ≤ c) ∧
    ((∃ e, assemble_checked ⟨[1], [5], [0]⟩ 1 3 = Except.error e) ∧
     ∀ A, assemble_checked ⟨[1], [5], [0]⟩ 1 3 ≠ Except.ok A) :=
  ⟨by decide,
    assembly_out_of_bounds ⟨[1], [5], [0]⟩ 1 3 (by decide)⟩

theorem firstHalf_append (m : ℕ) (u v : Fin m → ℚ) :
    firstHalf m (Fin.append u v) = u := by
  funext i
  exact Fin.append_left u v i

theorem secondHalf_append (m : ℕ) (u v : Fin m → ℚ) :
    secondHalf m (Fin.append u v) = v := by
  funext i
  exact Fin.append_right u v i

/-- Concrete evaluation helper: the identity-filter many-data batch returns
its input list. -/
theorem many_compute_empty_id (m : ℕ) (kl : ℚ) (data : List (Fin m → ℚ))
    (tol : ℚ) (maxiter : ℕ) (no_gpu : ℕ) :
    many_compute m (fun _ w _ _ => (w, 0)) ⟨[], [], []⟩ 1 kl data tol
        maxiter no_gpu = Except.ok data := by
  rw [many_compute_eq_collect]
  have h := collect_map_ok
    (fun b => compute m (fun _ w _ _ => (w, 0)) ⟨[], [], []⟩ 1 kl b tol
      maxiter) id data (fun b _ => compute_empty_id m kl b tol maxiter)
  simpa using h

/-- Concrete evaluation helper: the identity-filter spectral sweep returns
one copy of the data per wavelength. -/
theorem spectra_compute_empty_id (m : ℕ) (kls : List ℚ)
    (data : Fin m → ℚ) (tol : ℚ) (maxiter : ℕ) (no_gpu : ℕ) :
    spectra_compute m (fun _ w _ _ => (w, 0)) ⟨[], [], []⟩ 1 kls data tol
        maxiter no_gpu = Except.ok (kls.map (fun _ => data)) := by
  rw [spectra_compute_eq_collect]
  exact collect_map_ok _ (fun _ => data) kls
    (fun klx _ => compute_empty_id m klx data tol maxiter)

/-- Concrete evaluation helper: the identity-filter combined batch returns
its component lists unchanged. -/
theorem many_compute_full_empty_id (m : ℕ) (kl : ℚ)
    (ux vy : List (Fin m → ℚ)) (hlen : ux.length = vy.length) (tol : ℚ)
    (maxiter : ℕ) (no_gpu : ℕ) :
    many_compute_full m (fun _ w _ _ => (w, 0)) ⟨[], [], []⟩ 1 kl ux vy
        tol maxiter no_gpu = Except.ok (ux, vy) := by
  rw [many_compute_full_eq_collect]
  rw [collect_map_ok _ (fun p => Fin.append p.1 p.2) (ux.zip vy)
    (fun p _ => compute_full_empty_id m kl (Fin.append p.1 p.2) tol
      maxiter)]
  have h1 : ((ux.zip vy).map (fun p => Fin.append p.1 p.2)).map
      (firstHalf m) = ux := by
    rw [List.map_map]
    have he : (firstHalf m ∘ fun p : (Fin m → ℚ) × (Fin m → ℚ) =>
        Fin.append p.1 p.2) = Prod.fst := by
      funext p
      exact firstHalf_append m p.1 p.2
    rw [he]
    exact List.map_fst_zip ux vy (le_of_eq hlen)
  have h2 : ((ux.zip vy).map (fun p => Fin.append p.1 p.2)).map
      (secondHalf m) = vy := by
    rw [List.map_map]
    have he : (secondHalf m ∘ fun p : (Fin m → ℚ) × (Fin m → ℚ) =>
        Fin.append p.1 p.2) = Prod.snd := by
      funext p
      exact secondHalf_append m p.1 p.2
    rw [he]
    exact List.map_snd_zip ux vy (le_of_eq hlen.symm)
  simp [Except.map, h1, h2]

/-- Concrete evaluation helper: the identity-filter combined spectral sweep
returns one copy of each component per wavelength. -/
theorem spectra_compute_full_empty_id (m : ℕ) (kls : List ℚ)
    (ux vy : Fin m → ℚ) (tol : ℚ) (maxiter : ℕ) (no_gpu : ℕ) :
    spectra_compute_full m (fun _ w _ _ => (w, 0)) ⟨[], [], []⟩ 1 kls ux vy
        tol maxiter no_gpu =
      Except.ok (kls.map (fun _ => ux), kls.map (fun _ => vy)) := by
  rw [spectra_compute_full_eq_collect]
  rw [collect_map_ok _ (fun _ => Fin.append ux vy) kls
    (fun klx _ => compute_full_empty_id m klx (Fin.append ux vy) tol
      maxiter)]
  simp [Except.map, List.map_map, Function.comp,
    firstHalf_append, secondHalf_append]

/-- Claim C7: every batch method partitions its tasks into consecutive
chunks of fixed maximum size — 24 for the scalar batches and 12 for the
combined batches — completing each chunk before the next; and a batch one
longer than the chunk size produces exactly the concatenation of the two
separate batch calls of sizes chunk-size and 1 (stated as: whenever the
two sub-batches on `take chunk` and `drop chunk` succeed, the whole batch
returns their concatenation). -/
theorem batch_chunking (m : ℕ) (cg : CG m) (cgF : CG (m + m))
    (t tF : Triplets) (n nF : ℕ) (kl : ℚ) (tol tolF : ℚ)
    (maxiter maxiterF : ℕ) (no_gpu no_gpuF : ℕ)
    (data : List (Fin m → ℚ)) (kls : List ℚ) (data0 : Fin m → ℚ)
    (ux vy : List (Fin m → ℚ)) (klsF : List ℚ) (ux0 vy0 : Fin m → ℚ) :
    (n_parallel_scalar = 24 ∧ n_parallel_full = 12) ∧
    (data.length = n_parallel_scalar + 1 → ∀ xs ys,
      many_compute m cg t n kl (data.take n_parallel_scalar) tol maxiter
          no_gpu = Except.ok xs →
      many_compute m cg t n kl (data.drop n_parallel_scalar) tol maxiter
          no_gpu = Except.ok ys →
      many_compute m cg t n kl data tol maxiter no_gpu =
        Except.ok (xs ++ ys)) ∧
    (kls.length = n_parallel_scalar + 1 → ∀ xs ys,
      spectra_compute m cg t n (kls.take n_parallel_scalar) data0 tol
          maxiter no_gpu = Except.ok xs →
      spectra_compute m cg t n (kls.drop n_parallel_scalar) data0 tol
          maxiter no_gpu = Except.ok ys →
      spectra_compute m cg t n kls data0 tol maxiter no_gpu =
        Except.ok (xs ++ ys)) ∧
    (ux.length = n_parallel_full + 1 → ∀ p q,
      many_compute_full m cgF tF nF kl (ux.take n_parallel_full)
          (vy.take n_parallel_full) tolF maxiterF no_gpuF = Except.ok p →
      many_compute_full m cgF tF nF kl (ux.drop n_parallel_full)
          (vy.drop n_parallel_full) tolF maxiterF no_gpuF = Except.ok q →
      many_compute_full m cgF tF nF kl ux vy tolF maxiterF no_gpuF =
        Except.ok (p.1 ++ q.1, p.2 ++ q.2)) ∧
    (klsF.length = n_parallel_full + 1 → ∀ p q,
      spectra_compute_full m cgF tF nF (klsF.take n_parallel_full) ux0 vy0
          tolF maxiterF no_gpuF = Except.ok p →
      spectra_compute_full m cgF tF nF (klsF.drop n_parallel_full) ux0 vy0
          tolF maxiterF no_gpuF = Except.ok q →
      spectra_compute_full m cgF tF nF klsF ux0 vy0 tolF maxiterF no_gpuF =
        Except.ok (p.1 ++ q.1, p.2 ++ q.2)) := by
  refine ⟨⟨rfl, rfl⟩, ?_, ?_, ?_, ?_⟩
  · intro _ xs ys hxs hys
    rw [many_compute_eq_collect] at hxs hys ⊢
    have hsplit := collect_map_append
      (fun b => compute m cg t n kl b tol maxiter)
      (data.take n_parallel_scalar) (data.drop n_parallel_scalar)
    rw [List.take_append_drop] at hsplit
    rw [hsplit, hxs, hys]
    simp [Except.bind, Except.map]
  · intro _ xs ys hxs hys
    rw [spectra_compute_eq_collect] at hxs hys ⊢
    have hsplit := collect_map_append
      (fun klx => compute m cg t n klx data0 tol maxiter)
      (kls.take n_parallel_scalar) (kls.drop n_parallel_scalar)
    rw [List.take_append_drop] at hsplit
    rw [hsplit, hxs, hys]
    simp [Except.bind, Except.map]
  · intro _ p q hp hq
    rw [many_compute_full_eq_collect] at hp hq ⊢
    have hzt : (ux.take n_parallel_full).zip (vy.take n_parallel_full) =
        (ux.zip vy).take n_parallel_full := by
      simp [List.zip, List.take_zipWith]
    have hzd : (ux.drop n_parallel_full).zip (vy.drop n_parallel_full) =
        (ux.zip vy).drop n_parallel_full := by
      simp [List.zip, List.drop_zipWith]
    rw [hzt] at hp
    rw [hzd] at hq
    have hsplit := collect_map_append
      (fun r => compute_full m cgF tF nF kl (Fin.append r.1 r.2) tolF
        maxiterF)
      ((ux.zip vy).take n_parallel_full) ((ux.zip vy).drop n_parallel_full)
    rw [List.take_append_drop] at hsplit
    rw [hsplit]
    cases h1 : collect (((ux.zip vy).take n_parallel_full).map
        (fun r => compute_full m cgF tF nF kl (Fin.append r.1 r.2) tolF
          maxiterF)) with
    | error e => rw [h1] at hp; simp [Except.map] at hp
    | ok res1 =>
      cases h2 : collect (((ux.zip vy).drop n_parallel_full).map
          (fun r => compute_full m cgF tF nF kl (Fin.append r.1 r.2) tolF
            maxiterF)) with
      | error e => rw [h2] at hq; simp [Except.map] at hq
      | ok res2 =>
        rw [h1] at hp
        rw [h2] at hq
        simp only [Except.map] at hp hq
        rw [← Except.ok.inj hp, ← Except.ok.inj hq]
        simp [Except.bind, Except.map, List.map_append]
  · intro _ p q hp hq
    rw [spectra_compute_full_eq_collect] at hp hq ⊢
    have hsplit := collect_map_append
      (fun klx => compute_full m cgF tF nF klx (Fin.append ux0 vy0) tolF
        maxiterF)
      (klsF.take n_parallel_full) (klsF.drop n_parallel_full)
    rw [List.take_append_drop] at hsplit
    rw [hsplit]
    cases h1 : collect ((klsF.take n_parallel_full).map
        (fun klx => compute_full m cgF tF nF klx (Fin.append ux0 vy0) tolF
          maxiterF)) with
    | error e => rw [h1] at hp; simp [Except.map] at hp
    | ok res1 =>
      cases h2 : collect ((klsF.drop n_parallel_full).map
          (fun klx => compute_full m cgF tF nF klx (Fin.append ux0 vy0)
            tolF maxiterF)) with
      | error e => rw [h2] at hq; simp [Except.map] at hq
      | ok res2 =>
        rw [h1] at hp
        rw [h2] at hq
        simp only [Except.map] at hp hq
        rw [← Except.ok.inj hp, ← Except.ok.inj hq]
        simp [Except.bind, Except.map, List.map_append]

/-- Witness for C7: batches of 25 (scalar) and 13 (combined) tasks through
the identity filter equal the concatenation of the chunk-sized and
single-task sub-batches. -/
theorem batch_chunking_witness :
    ((List.replicate 25 (fun _ => (3 : ℚ)) :
        List (Fin 1 → ℚ)).length = n_parallel_scalar + 1 ∧
     (List.replicate 13 (fun _ => (3 : ℚ)) :
        List (Fin 1 → ℚ)).length = n_parallel_full + 1) ∧
    many_compute 1 (fun _ w _ _ => (w, 0)) ⟨[], [], []⟩ 1 1
        (List.replicate 25 (fun _ => (3 : ℚ))) 1 5 1 =
      Except.ok (List.replicate 24 (fun _ => (3 : ℚ)) ++
        [fun _ => (3 : ℚ)]) ∧
    spectra_compute 1 (fun _ w _ _ => (w, 0)) ⟨[], [], []⟩ 1
        (List.replicate 25 (2 : ℚ)) (fun _ => (3 : ℚ)) 1 5 1 =
      Except.ok (List.replicate 24 (fun _ => (3 : ℚ)) ++
        [fun _ => (3 : ℚ)]) ∧
    many_compute_full 1 (fun _ w _ _ => (w, 0)) ⟨[], [], []⟩ 1 1
        (List.replicate 13 (fun _ => (3 : ℚ)))
        (List.replicate 13 (fun _ => (3 : ℚ))) 1 5 1 =
      Except.ok
        (List.replicate 12 (fun _ => (3 : ℚ)) ++ [fun _ => (3 : ℚ)],
         List.replicate 12 (fun _ => (3 : ℚ)) ++ [fun _ => (3 : ℚ)]) ∧
    spectra_compute_full 1 (fun _ w _ _ => (w, 0)) ⟨[], [], []⟩ 1
        (List.replicate 13 (2 : ℚ)) (fun _ => (3 : ℚ))
        (fun _ => (3 : ℚ)) 1 5 1 =
      Except.ok
        (List.replicate 12 (fun _ => (3 : ℚ)) ++ [fun _ => (3 : ℚ)],
         List.replicate 12 (fun _ => (3 : ℚ)) ++ [fun _ => (3 : ℚ)]) := by
  have hthm := batch_chunking 1 (fun _ w _ _ => (w, 0))
    (fun _ w _ _ => (w, 0)) ⟨[], [], []⟩ ⟨[], [], []⟩ 1 1 1 1 1 5 5 1 1
    (List.replicate 25 (fun _ => (3 : ℚ))) (List.replicate 25 (2 : ℚ))
    (fun _ => (3 : ℚ)) (List.replicate 13 (fun _ => (3 : ℚ)))
    (List.replicate 13 (fun _ => (3 : ℚ))) (List.replicate 13 (2 : ℚ))
    (fun _ => (3 : ℚ)) (fun _ => (3 : ℚ))
  refine ⟨⟨by simp [n_parallel_scalar], by simp [n_parallel_full]⟩,
    ?_, ?_, ?_, ?_⟩
  · refine hthm.2.1 (by simp [n_parallel_scalar]) _ _ ?_ ?_
    · rw [show (List.replicate 25 (fun _ => (3 : ℚ)) :
          List (Fin 1 → ℚ)).take n_parallel_scalar =
          List.replicate 24 (fun _ => (3 : ℚ)) by
        simp [n_parallel_scalar, List.take_replicate]]
      exact many_compute_empty_id 1 1 _ 1 5 1
    · rw [show (List.replicate 25 (fun _ => (3 : ℚ)) :
          List (Fin 1 → ℚ)).drop n_parallel_scalar =
          [fun _ => (3 : ℚ)] by
        simp [n_parallel_scalar, List.drop_replicate]]
      exact many_compute_empty_id 1 1 _ 1 5 1
  · refine hthm.2.2.1 (by simp [n_parallel_scalar]) _ _ ?_ ?_
    · rw [show (List.replicate 25 (2 : ℚ)).take n_parallel_scalar =
          List.replicate 24 (2 : ℚ) by
        simp [n_parallel_scalar, List.take_replicate]]
      rw [spectra_compute_empty_id 1 (List.replicate 24 (2 : ℚ))
        (fun _ => (3 : ℚ)) 1 5 1]
      simp [List.map_replicate]
    · rw [show (List.replicate 25 (2 : ℚ)).drop n_parallel_scalar =
          [(2 : ℚ)] by simp [n_parallel_scalar, List.drop_replicate]]
      rw [spectra_compute_empty_id 1 [(2 : ℚ)] (fun _ => (3 : ℚ)) 1 5 1]
      simp
  · refine hthm.2.2.2.1 (by simp [n_parallel_full])
      (List.replicate 12 (fun _ => (3 : ℚ)),
        List.replicate 12 (fun _ => (3 : ℚ)))
      ([fun _ => (3 : ℚ)], [fun _ => (3 : ℚ)]) ?_ ?_
    · rw [show (List.replicate 13 (fun _ => (3 : ℚ)) :
          List (Fin 1 → ℚ)).take n_parallel_full =
          List.replicate 12 (fun _ => (3 : ℚ)) by
        simp [n_parallel_full, List.take_replicate]]
      exact many_compute_full_empty_id 1 1 _ _ rfl 1 5 1
    · rw [show (List.replicate 13 (fun _ => (3 : ℚ)) :
          List (Fin 1 → ℚ)).drop n_parallel_full =
          [fun _ => (3 : ℚ)] by
        simp [n_parallel_full, List.drop_replicate]]
      exact many_compute_full_empty_id 1 1 _ _ rfl 1 5 1
  · refine hthm.2.2.2.2 (by simp [n_parallel_full])
      (List.replicate 12 (fun _ => (3 : ℚ)),
        List.replicate 12 (fun _ => (3 : ℚ)))
      ([fun _ => (3 : ℚ)], [fun _ => (3 : ℚ)]) ?_ ?_
    · rw [show (List.replicate 13 (2 : ℚ)).take n_parallel_full =
          List.replicate 12 (2 : ℚ) by
        simp [n_parallel_full, List.take_replicate]]
      rw [spectra_compute_full_empty_id 1 (List.replicate 12 (2 : ℚ))
        (fun _ => (3 : ℚ)) (fun _ => (3 : ℚ)) 1 5 1]
      simp [List.map_replicate]
    · rw [show (List.replicate 13 (2 : ℚ)).drop n_parallel_full =
          [(2 : ℚ)] by simp [n_parallel_full, List.drop_replicate]]
      rw [spectra_compute_full_empty_id 1 [(2 : ℚ)] (fun _ => (3 : ℚ))
        (fun _ => (3 : ℚ)) 1 5 1]
      simp

/-- Claim C8: the combined solver concatenates the component vectors `u`
and `v` into one vector of length `2N` (`u` first, then `v`), solves the
doubled system, and splits the result into two halves — the first half
returned as the filtered `u` component, the second as the filtered `v`
component. -/
theorem combined_concat_split (m : ℕ) (cgF : CG (m + m)) (t : Triplets)
    (n : ℕ) (kl : ℚ) (tol : ℚ) (maxiter : ℕ) (no_gpu : ℕ)
    (ux vy : List (Fin m → ℚ))
    (F : (Fin m → ℚ) × (Fin m → ℚ) → Fin (m + m) → ℚ)
    (kls : List ℚ) (ux0 vy0 : Fin m → ℚ) (G : ℚ → Fin (m + m) → ℚ)
    (h : ∀ p ∈ ux.zip vy,
      compute_full m cgF t n kl (Fin.append p.1 p.2) tol maxiter =
        Except.ok (F p))
    (h2 : ∀ klx ∈ kls,
      compute_full m cgF t n klx (Fin.append ux0 vy0) tol maxiter =
        Except.ok (G klx)) :
    many_compute_full m cgF t n kl ux vy tol maxiter no_gpu =
      Except.ok ((ux.zip vy).map (fun p => firstHalf m (F p)),
                 (ux.zip vy).map (fun p => secondHalf m (F p))) ∧
    spectra_compute_full m cgF t n kls ux0 vy0 tol maxiter no_gpu =
      Except.ok (kls.map (fun klx => firstHalf m (G klx)),
                 kls.map (fun klx => secondHalf m (G klx))) ∧
    ∀ u v : Fin m → ℚ,
      firstHalf m (Fin.append u v) = u ∧
      secondHalf m (Fin.append u v) = v := by
  refine ⟨?_, ?_,
    fun u v => ⟨firstHalf_append m u v, secondHalf_append m u v⟩⟩
  · rw [many_compute_full_eq_collect, collect_map_ok _ F (ux.zip vy) h]
    simp [Except.map]
  · rw [spectra_compute_full_eq_collect, collect_map_ok _ G kls h2]
    simp [Except.map]

/-- Witness for C8: a singleton pair batch and a singleton wavelength sweep
through the identity filter. -/
theorem combined_concat_split_witness :
    ((∀ p ∈ ([fun _ => (3 : ℚ)] : List (Fin 1 → ℚ)).zip
        ([fun _ => (4 : ℚ)] : List (Fin 1 → ℚ)),
      compute_full 1 (fun _ w _ _ => (w, 0)) ⟨[], [], []⟩ 1 1
          (Fin.append p.1 p.2) 1 5 =
        Except.ok (Fin.append p.1 p.2)) ∧
     ∀ klx ∈ [(2 : ℚ)],
      compute_full 1 (fun _ w _ _ => (w, 0)) ⟨[], [], []⟩ 1 klx
          (Fin.append (fun _ => (3 : ℚ)) (fun _ => (4 : ℚ))) 1 5 =
        Except.ok (Fin.append (fun _ => (3 : ℚ)) (fun _ => (4 : ℚ)))) ∧
    many_compute_full 1 (fun _ w _ _ => (w, 0)) ⟨[], [], []⟩ 1 1
        [fun _ => (3 : ℚ)] [fun _ => (4 : ℚ)] 1 5 1 =
      Except.ok
        ((([fun _ => (3 : ℚ)] : List (Fin 1 → ℚ)).zip
            ([fun _ => (4 : ℚ)] : List (Fin 1 → ℚ))).map
          (fun p => firstHalf 1 (Fin.append p.1 p.2)),
         (([fun _ => (3 : ℚ)] : List (Fin 1 → ℚ)).zip
            ([fun _ => (4 : ℚ)] : List (Fin 1 → ℚ))).map
          (fun p => secondHalf 1 (Fin.append p.1 p.2))) ∧
    spectra_compute_full 1 (fun _ w _ _ => (w, 0)) ⟨[], [], []⟩ 1
        [(2 : ℚ)] (fun _ => (3 : ℚ)) (fun _ => (4 : ℚ)) 1 5 1 =
      Except.ok
        ([(2 : ℚ)].map (fun _ => firstHalf 1
          (Fin.append (fun _ => (3 : ℚ)) (fun _ => (4 : ℚ)))),
         [(2 : ℚ)].map (fun _ => secondHalf 1
          (Fin.append (fun _ => (3 : ℚ)) (fun _ => (4 : ℚ))))) ∧
    ∀ u v : Fin 1 → ℚ,
      firstHalf 1 (Fin.append u v) = u ∧
      secondHalf 1 (Fin.append u v) = v := by
  have hthm := combined_concat_split 1 (fun _ w _ _ => (w, 0)) ⟨[], [], []⟩
    1 1 1 5 1 [fun _ => (3 : ℚ)] [fun _ => (4 : ℚ)]
    (fun p => Fin.append p.1 p.2) [(2 : ℚ)] (fun _ => (3 : ℚ))
    (fun _ => (4 : ℚ))
    (fun _ => Fin.append (fun _ => (3 : ℚ)) (fun _ => (4 : ℚ)))
    (fun p _ => compute_full_empty_id 1 1 (Fin.append p.1 p.2) 1 5)
    (fun klx _ => compute_full_empty_id 1 klx
      (Fin.append (fun _ => (3 : ℚ)) (fun _ => (4 : ℚ))) 1 5)
  exact ⟨⟨fun p _ => compute_full_empty_id 1 1 (Fin.append p.1 p.2) 1 5,
      fun klx _ => compute_full_empty_id 1 klx
        (Fin.append (fun _ => (3 : ℚ)) (fun _ => (4 : ℚ))) 1 5⟩,
    hthm.1, hthm.2.1, hthm.2.2⟩

/-- Claim C9: if any single task of a batch fails with
`SolverNotConvergedError`, the whole batch call fails with that error and
no partial-result list is returned. -/
theorem batch_failure_propagates (m : ℕ) (cg : CG m) (t : Triplets)
    (n : ℕ) (kl : ℚ) (tol : ℚ) (maxiter : ℕ) (no_gpu : ℕ)
    (data : List (Fin m → ℚ)) (b : Fin m → ℚ)
    (e : SolverNotConvergedError) (hmem : b ∈ data)
    (hb : compute m cg t n kl b tol maxiter = Except.error e) :
    (∃ e', many_compute m cg t n kl data tol maxiter no_gpu =
      Except.error e') ∧
    ∀ out, many_compute m cg t n kl data tol maxiter no_gpu ≠
      Except.ok out := by
  rcases collect_map_error_of_mem
    (fun x => compute m cg t n kl x tol maxiter) data b e hmem hb with
    ⟨e', he'⟩
  rw [many_compute_eq_collect]
  refine ⟨⟨e', he'⟩, ?_⟩
  intro out hout
  rw [he'] at hout
  exact Except.noConfusion hout

/-- Concrete evaluation helper: a conjugate-gradient stub reporting exit
code 1 makes the scalar solve raise with that code. -/
theorem compute_fail_one (m : ℕ) (kl : ℚ) (b : Fin m → ℚ) (tol : ℚ)
    (maxiter : ℕ) :
    compute m (fun _ w _ _ => (w, 1)) ⟨[], [], []⟩ 1 kl b tol maxiter =
      Except.error
        { message := "Solver has not converged without metric terms",
          diagnostics := ["output code with code: " ++ toString (1 : ℤ)] }
    := by
  simp only [compute]
  rw [if_pos (by decide)]

/-- Witness for C9: a singleton batch whose only task fails with exit
code 1. -/
theorem batch_failure_propagates_witness :
    ((fun _ => (3 : ℚ)) ∈ ([fun _ => (3 : ℚ)] : List (Fin 1 → ℚ)) ∧
     compute 1 (fun _ w _ _ => (w, 1)) ⟨[], [], []⟩ 1 1 (fun _ => 3) 1 5 =
      Except.error
        { message := "Solver has not converged without metric terms",
          diagnostics :=
            ["output code with code: " ++ toString (1 : ℤ)] }) ∧
    (∃ e', many_compute 1 (fun _ w _ _ => (w, 1)) ⟨[], [], []⟩ 1 1
        [fun _ => (3 : ℚ)] 1 5 1 = Except.error e') ∧
    ∀ out, many_compute 1 (fun _ w _ _ => (w, 1)) ⟨[], [], []⟩ 1 1
        [fun _ => (3 : ℚ)] 1 5 1 ≠ Except.ok out :=
  ⟨⟨List.mem_singleton.mpr rfl, compute_fail_one 1 1 (fun _ => 3) 1 5⟩,
    batch_failure_propagates 1 (fun _ w _ _ => (w, 1)) ⟨[], [], []⟩ 1 1 1
      5 1 [fun _ => (3 : ℚ)] (fun _ => (3 : ℚ))
      { message := "Solver has not converged without metric terms",
        diagnostics := ["output code with code: " ++ toString (1 : ℤ)] }
      (List.mem_singleton.mpr rfl) (compute_fail_one 1 1 (fun _ => 3) 1 5)⟩

/-- Claim C10: the base class `Filter` declares `many_compute_velocity` as
a concrete (non-abstract) method whose body is only `pass`, so for every
subclass that does not override it the call returns `None` instead of the
documented tuple of two lists of filtered arrays. -/
theorem base_many_compute_velocity_returns_none (m n : ℕ) (k : ℚ)
    (ux vy : List (Fin m → ℚ)) :
    Filter_many_compute_velocity m n k ux vy = none ∧
    ∀ r, Filter_many_compute_velocity m n k ux vy ≠ some r :=
  ⟨rfl, fun _ hr => Option.noConfusion hr⟩

end ImplicitFilter
